import Mathlib

/-!
Shallow embedding of the quiz backend's room lifecycle (src/server.js,
final handler revision: the `io.on('connection', ...)` block registered
last, together with `startQuestionTimer` / `clearQuestionTimer`).

Modelling choices:
* JS numbers that only ever hold integers are `Int` (scores, bonuses,
  settings) or `Nat` (`currentQuestion`, which is only set to 0 and
  incremented); `Math.floor(a / b)` on integers with `b > 0` is
  `Int.fdiv (a) b` after distributing the `* 10`.
* `undefined` payload fields are `Option`; JS string falsiness
  (`x || d`) is the empty string.
* The in-memory `Map`s (`rooms`, `socketRoomMap`) are association
  lists with JS `Map` get/set/delete semantics; the `questionTimers`
  map is the list of room codes with an armed timer (the timer handle
  itself carries no state), and the `setTimeout` callback body is the
  separate transition `questionTimerFire` (a fired one-shot timer
  cannot fire again, so firing consumes the entry).
* `io.to(code).emit` / `socket.emit` are recorded in an explicit event
  trace (`Emit.broadcast` / `Emit.reply`); only error events carry
  their message, other payloads are elided.
* The external question generator (the async AI call) is out of scope;
  its awaited outcome is a parameter.  The socket handler around it is
  split at the `await`: `generateQuestionsBegin` runs the call-time
  guards and captures the room and the generator arguments, and
  `generateQuestionsComplete` performs the post-await writes through the
  captured room, so other events can interleave while a generation is
  pending.  Room-code randomness is likewise a parameter of `createRoom`.
-/

inductive Status where
  | waiting
  | quiz
  | finished
deriving DecidableEq

structure Player where
  id : String
  clientId : String
  name : String
  score : Int
  answered : Bool
  selectedAnswer : Option Int
  answerTime : Option Int
  roundPoints : Int
  ready : Bool
deriving DecidableEq

structure Question where
  qid : String
  question : String
  options : List String
  correctAnswer : Int
  difficulty : String
deriving DecidableEq

structure Room where
  code : String
  adminId : String
  players : List Player
  status : Status
  currentQuestion : Nat
  totalQuestions : Int
  questions : List Question
  topic : String
  difficulty : String
  questionCount : Int
  questionTime : Int
  questionsReady : Bool
  rematch : Bool
deriving DecidableEq

/-- What a pending `generateQuestions` call holds across its `await`: the
store key of the captured room object (see `pruneGens` for identity), the
`room.code` the closure uses for its emits, the caller socket (target of
the failure reply), and the generator arguments read at call time. -/
structure PendingGen where
  roomCode : String
  emitCode : String
  sockId : String
  topic : String
  difficulty : String
  count : Int
deriving DecidableEq

structure ServerState where
  rooms : List (String × Room)
  socketRoomMap : List (String × String)
  questionTimers : List String
  pendingGens : List PendingGen := []
deriving DecidableEq

inductive Emit where
  | reply (event : String) (message : String)
  | broadcast (roomCode : String) (event : String)
deriving DecidableEq

/-! ### Association lists with JS `Map` get/set/delete semantics -/

def alGet {α : Type} (k : String) : List (String × α) → Option α
  | [] => none
  | kv :: t => if kv.1 = k then some kv.2 else alGet k t

def alSet {α : Type} (k : String) (v : α) : List (String × α) → List (String × α)
  | [] => [(k, v)]
  | kv :: t => if kv.1 = k then (k, v) :: t else kv :: alSet k v t

def alDelete {α : Type} (k : String) : List (String × α) → List (String × α)
  | [] => []
  | kv :: t => if kv.1 = k then alDelete k t else kv :: alDelete k t

/-! ### List helpers mirroring JS array idioms -/

/-- `Array.prototype.find`. -/
def findFirst {α : Type} (pred : α → Bool) : List α → Option α
  | [] => none
  | x :: t => if pred x then some x else findFirst pred t

/-- In-place mutation of the first element matched by `find`. -/
def updateFirst {α : Type} (pred : α → Bool) (f : α → α) : List α → List α
  | [] => []
  | x :: t => if pred x then f x :: t else x :: updateFirst pred f t

/-- `findIndex` + `splice(idx, 1)`: the removed element and the rest. -/
def spliceOut (sockId : String) : List Player → Option (Player × List Player)
  | [] => none
  | p :: t =>
    if p.id = sockId then some (p, t)
    else match spliceOut sockId t with
      | none => none
      | some (q, t2) => some (q, p :: t2)

/-! ### Payloads and small helpers -/

/-- `.toUpperCase()` as JS applies it to room codes, written over the
character list so that it reduces in the kernel. -/
def toUpperStr (s : String) : String := String.mk (s.data.map Char.toUpper)

/-- JS `x || d` for strings (empty string is falsy). -/
def defaultStr (s d : String) : String := if s = "" then d else s

/-- JS `Number(x || d)` for an optional numeric payload field (0 is falsy). -/
def numOr (x : Option Int) (d : Int) : Int :=
  match x with
  | none => d
  | some n => if n = 0 then d else n

structure CreateData where
  playerName : String
  topic : String
  difficulty : String
  questionCount : Option Int
  clientId : String
deriving DecidableEq

structure JoinData where
  roomCode : String
  playerName : String
  clientId : String
deriving DecidableEq

structure RejoinData where
  roomCode : String
  clientId : String
  playerName : String
deriving DecidableEq

structure SettingsData where
  topic : Option String
  difficulty : Option String
  questionCount : Option Int
  questionTime : Option Int
deriving DecidableEq

structure AnswerData where
  answer : Option Int
  timeRemaining : Option Int
deriving DecidableEq

/-- The fresh-player object built by `createRoom` / `joinRoom` / `rejoinRoom`. -/
def newPlayer (sockId clientId name : String) : Player :=
  { id := sockId, clientId := clientId, name := name, score := 0, answered := false,
    selectedAnswer := none, answerTime := none, roundPoints := 0, ready := false }

/-- The lobby test `room.status === 'waiting' || (room.status === 'finished' &&
room.rematch === true)`; the same expression guards `joinRoom`'s `canJoin`,
`rejoinRoom`'s fresh-join branch, `updateSettings` and `generateQuestions`. -/
def canJoinRoom (room : Room) : Prop :=
  room.status = Status.waiting ∨ (room.status = Status.finished ∧ room.rematch = true)

instance instDecCanJoinRoom (room : Room) : Decidable (canJoinRoom room) :=
  inferInstanceAs (Decidable (room.status = Status.waiting ∨
    (room.status = Status.finished ∧ room.rematch = true)))

/-! ### Timer management -/

def clearQuestionTimer (roomCode : String) (timers : List String) : List String :=
  timers.filter (fun c => decide (c ≠ roomCode))

def startQuestionTimer (roomCode : String) (timers : List String) : List String :=
  roomCode :: clearQuestionTimer roomCode timers

/-- Body of the per-player auto-submit in the timer expiry callback. -/
def autoSubmit (p : Player) : Player :=
  if p.answered then p
  else { p with answered := true, selectedAnswer := some (-1), roundPoints := 0 }

/-- The `setTimeout` callback of `startQuestionTimer`: emit `timeUp`,
force-submit unanswered players, emit `allAnswered`.  The callback closes
over the (in-place mutated, hence current) room object; re-fetching it by
code is observationally the same, with a no-op guard if it is gone. -/
def questionTimerFire (s : ServerState) (roomCode : String) : ServerState × List Emit :=
  match alGet roomCode s.rooms with
  | none => ({ s with questionTimers := clearQuestionTimer roomCode s.questionTimers }, [])
  | some room =>
    ({ s with
        rooms := alSet roomCode { room with players := room.players.map autoSubmit } s.rooms,
        questionTimers := clearQuestionTimer roomCode s.questionTimers },
     [Emit.broadcast roomCode "timeUp", Emit.broadcast roomCode "allAnswered"])

/-! ### Handlers -/

/-- `createRoom`: `roomCode` stands for the generated-until-unused random
code (the `do..while` guarantees freshness, imposed on the `Step` relation). -/
def createRoom (s : ServerState) (sockId roomCode : String) (d : CreateData) :
    ServerState × List Emit :=
  ({ s with
      rooms := alSet roomCode
        { code := roomCode, adminId := sockId,
          players := [newPlayer sockId (defaultStr d.clientId (sockId ++ "-t"))
            (defaultStr d.playerName "Player")],
          status := Status.waiting, currentQuestion := 0,
          totalQuestions := numOr d.questionCount 5, questions := [],
          topic := defaultStr d.topic "General Knowledge",
          difficulty := defaultStr d.difficulty "medium",
          questionCount := numOr d.questionCount 5, questionTime := 30,
          questionsReady := false, rematch := false } s.rooms,
      socketRoomMap := alSet sockId roomCode s.socketRoomMap },
   [Emit.reply "roomCreated" ""])

def joinRoom (s : ServerState) (sockId : String) (d : JoinData) :
    ServerState × List Emit :=
  match alGet (toUpperStr d.roomCode) s.rooms with
  | none => (s, [Emit.reply "error" "Room not found"])
  | some room =>
    if canJoinRoom room then
      if 10 ≤ room.players.length then
        (s, [Emit.reply "error" "Room is full"])
      else
        ({ s with
            rooms := alSet (toUpperStr d.roomCode)
              { room with players := (room.players ++
                  [newPlayer sockId (defaultStr d.clientId (sockId ++ "-t"))
                    (defaultStr d.playerName "Player")]) } s.rooms,
            socketRoomMap := alSet sockId (toUpperStr d.roomCode) s.socketRoomMap },
         [Emit.broadcast (toUpperStr d.roomCode) "roomUpdated", Emit.reply "roomJoined" ""])
    else
      if d.clientId ≠ "" then
        match findFirst (fun p => decide (p.clientId = d.clientId)) room.players with
        | some _ =>
          ({ s with
              rooms := alSet (toUpperStr d.roomCode)
                { room with players := (updateFirst (fun p => decide (p.clientId = d.clientId))
                    (fun p => { p with id := sockId }) room.players) } s.rooms,
              socketRoomMap := alSet sockId (toUpperStr d.roomCode) s.socketRoomMap },
           [Emit.broadcast (toUpperStr d.roomCode) "roomUpdated", Emit.reply "roomJoined" ""])
        | none => (s, [Emit.reply "error" "Game has already started"])
      else (s, [Emit.reply "error" "Game has already started"])

def rejoinRoom (s : ServerState) (sockId : String) (d : RejoinData) :
    ServerState × List Emit :=
  if (toUpperStr d.roomCode) = "" ∨ d.clientId = "" then
    (s, [Emit.reply "error" "Invalid rejoin payload"])
  else
    match alGet (toUpperStr d.roomCode) s.rooms with
    | none => (s, [Emit.reply "error" "Room not found"])
    | some room =>
      match findFirst (fun p => decide (p.clientId = d.clientId)) room.players with
      | none =>
        if canJoinRoom room then
          ({ s with
              rooms := alSet (toUpperStr d.roomCode)
                { room with players := (room.players ++
                    [newPlayer sockId d.clientId (defaultStr d.playerName "Player")]) } s.rooms,
              socketRoomMap := alSet sockId (toUpperStr d.roomCode) s.socketRoomMap },
           [Emit.broadcast (toUpperStr d.roomCode) "roomUpdated", Emit.reply "roomJoined" ""])
        else (s, [Emit.reply "error" "Game already in progress"])
      | some _ =>
        ({ s with
            rooms := alSet (toUpperStr d.roomCode)
              { room with players := (updateFirst (fun p => decide (p.clientId = d.clientId))
                  (fun p => { p with id := sockId }) room.players) } s.rooms,
            socketRoomMap := alSet sockId (toUpperStr d.roomCode) s.socketRoomMap },
         [Emit.broadcast (toUpperStr d.roomCode) "roomUpdated", Emit.reply "roomJoined" ""])

/-- `socketRoomMap.get(socket.id)` followed by
`rooms.get((roomCode || '').toUpperCase())`, the common prologue of the
admin/in-room handlers.  (The `Array.from(socket.rooms)[1]` fallback is
redundant with the reverse map, which every join path maintains.) -/
def resolveRoom (s : ServerState) (sockId : String) : Option (String × Room) :=
  match alGet sockId s.socketRoomMap with
  | none => none
  | some rc0 =>
    match alGet (toUpperStr rc0) s.rooms with
    | none => none
    | some room => some ((toUpperStr rc0), room)

def clampCount (n : Int) : Int := max 1 (min 20 n)

def allowedTimes : List Int := [10, 15, 20, 25, 30]

/-- The mutation block of `updateSettings`: each supplied field is written
(with its clamp), then `questions`/`questionsReady` are unconditionally
invalidated. -/
def applySettings (room : Room) (d : SettingsData) : Room :=
  { room with
      topic := (match d.topic with | some t => t | none => room.topic),
      difficulty := (match d.difficulty with | some v => v | none => room.difficulty),
      questionCount := (match d.questionCount with
        | some n => clampCount n | none => room.questionCount),
      totalQuestions := (match d.questionCount with
        | some n => clampCount n | none => room.totalQuestions),
      questionTime := (match d.questionTime with
        | some t => if t ∈ allowedTimes then t else 30 | none => room.questionTime),
      questions := [],
      questionsReady := false }

def updateSettings (s : ServerState) (sockId : String) (d : SettingsData) :
    ServerState × List Emit :=
  match resolveRoom s sockId with
  | none => (s, [])
  | some (rc, room) =>
    if room.adminId = sockId then
      if canJoinRoom room then
        ({ s with rooms := alSet rc (applySettings room d) s.rooms },
         [Emit.broadcast room.code "roomUpdated"])
      else (s, [])
    else (s, [])

/-- The call-time data of the async `generateQuestions` socket handler: the
guards (`!room || room.adminId !== socket.id`, lobby test) run before the
`await`, and the closure captures the room plus the generator arguments
`room.topic`, `room.difficulty`, `room.questionCount` as they are then. -/
def genToken (s : ServerState) (sockId : String) : Option PendingGen :=
  match resolveRoom s sockId with
  | none => none
  | some (rc, room) =>
    if room.adminId = sockId then
      if canJoinRoom room then
        some { roomCode := rc, emitCode := room.code, sockId := sockId,
               topic := room.topic, difficulty := room.difficulty,
               count := room.questionCount }
      else none
    else none

/-- `generateQuestions` up to its `await`: on passing the guards it emits
`generatingQuestions` and leaves a pending generation behind; the room
itself is untouched.  On a guard failure the handler returns silently. -/
def generateQuestionsBegin (s : ServerState) (sockId : String) :
    ServerState × List Emit :=
  match genToken s sockId with
  | none => (s, [])
  | some tok =>
    ({ s with pendingGens := s.pendingGens ++ [tok] },
     [Emit.broadcast tok.emitCode "generatingQuestions"])

/-- Removes one settled pending generation. -/
def eraseFirstGen (tok : PendingGen) : List PendingGen → List PendingGen
  | [] => []
  | g :: t => if g = tok then t else g :: eraseFirstGen tok t

/-- `generateQuestions` after its `await` settles: the handler writes
`room.questions` / `room.questionsReady` through the closed-over room
object with no re-fetch and no re-validation, then emits; on failure it
replies an error to the captured caller.  The captured object is the room
stored under `tok.roomCode` for as long as that room lives (mutation is in
place); a completion whose room was destroyed mutates only a dead object,
which the store never sees. -/
def generateQuestionsComplete (s : ServerState) (tok : PendingGen)
    (result : Option (List Question)) : ServerState × List Emit :=
  match result with
  | some qs =>
    match alGet tok.roomCode s.rooms with
    | none =>
      ({ s with pendingGens := eraseFirstGen tok s.pendingGens },
       [Emit.broadcast tok.emitCode "questionsGenerated",
        Emit.broadcast tok.emitCode "roomUpdated"])
    | some room =>
      ({ s with
          pendingGens := eraseFirstGen tok s.pendingGens,
          rooms := alSet tok.roomCode
            { room with questions := qs, questionsReady := true } s.rooms },
       [Emit.broadcast tok.emitCode "questionsGenerated",
        Emit.broadcast tok.emitCode "roomUpdated"])
  | none =>
    ({ s with pendingGens := eraseFirstGen tok s.pendingGens },
     [Emit.reply "error" "Failed to generate questions"])

/-- The whole `generateQuestions` handler under the schedule in which the
`await` settles before any other event runs: the begin half followed
immediately by its completion. -/
def generateQuestionsAtomic (s : ServerState) (sockId : String)
    (result : Option (List Question)) : ServerState × List Emit :=
  match genToken s sockId with
  | none => (s, [])
  | some tok =>
    ((generateQuestionsComplete
        { s with pendingGens := s.pendingGens ++ [tok] } tok result).1,
     Emit.broadcast tok.emitCode "generatingQuestions" ::
       (generateQuestionsComplete
         { s with pendingGens := s.pendingGens ++ [tok] } tok result).2)

def resetForMatch (p : Player) : Player :=
  { p with
      score := 0, answered := false, selectedAnswer := none,
      answerTime := none, roundPoints := 0, ready := false }

/-- The success path of `startQuiz` after all guards pass. -/
def startQuizGo (s : ServerState) (rc : String) (room : Room) : ServerState × List Emit :=
  ({ s with
      rooms := alSet rc
        { room with
            players := room.players.map resetForMatch,
            rematch := false, status := Status.quiz, currentQuestion := 0 } s.rooms,
      questionTimers := startQuestionTimer room.code s.questionTimers },
   [Emit.broadcast room.code "quizStarted"])

def startQuiz (s : ServerState) (sockId : String) : ServerState × List Emit :=
  match resolveRoom s sockId with
  | none => (s, [Emit.reply "error" "Not authorized"])
  | some (rc, room) =>
    if room.adminId = sockId then
      if room.questions.length = 0 ∨ room.questionsReady = false then
        (s, [Emit.reply "error" "Generate questions first"])
      else
        if room.status = Status.finished ∧ room.rematch = true then
          if room.players.all (fun p => p.ready) then startQuizGo s rc room
          else (s, [Emit.reply "error" "All players must press Play Again to be ready"])
        else startQuizGo s rc room
    else (s, [Emit.reply "error" "Not authorized"])

/-- `answer === room.questions[room.currentQuestion].correctAnswer`
(`undefined === n` is false; an out-of-range `currentQuestion` cannot be
reached with `status === 'quiz'`). -/
def answerMatches (answer : Option Int) (correct : Option Int) : Bool :=
  match answer, correct with
  | some a, some c => decide (a = c)
  | _, _ => false

/-- `Math.floor((Number(timeRemaining || 0) / maxTime) * 10)` for integer
inputs and `maxTime > 0`. -/
def timeBonus (tr maxTime : Int) : Int := Int.fdiv (tr * 10) maxTime

/-- The mutation `selectAnswer` performs on the answering player. -/
def applyAnswer (p : Player) (answer : Option Int) (tr maxTime : Int)
    (correct : Option Int) : Player :=
  { p with
      selectedAnswer := answer,
      answerTime := some (maxTime - tr),
      answered := true,
      roundPoints := if answerMatches answer correct then 10 + timeBonus tr maxTime else 0,
      score := if answerMatches answer correct
        then p.score + (10 + timeBonus tr maxTime) else p.score }

/-- The room after `selectAnswer`'s player mutation. -/
def selectAnswerApply (room : Room) (sockId : String) (d : AnswerData) : Room :=
  { room with players := (updateFirst (fun p => decide (p.id = sockId))
      (fun p => applyAnswer p d.answer
        (match d.timeRemaining with | none => 0 | some t => t)
        (if room.questionTime = 0 then 30 else room.questionTime)
        ((room.questions[room.currentQuestion]?).map (fun q => q.correctAnswer)))
      room.players) }

def selectAnswer (s : ServerState) (sockId : String) (d : AnswerData) :
    ServerState × List Emit :=
  match resolveRoom s sockId with
  | none => (s, [])
  | some (rc, room) =>
    if room.status = Status.quiz then
      match findFirst (fun p => decide (p.id = sockId)) room.players with
      | none => (s, [])
      | some player =>
        if player.answered then (s, [])
        else
          if (selectAnswerApply room sockId d).players.all (fun p => p.answered) then
            ({ s with
                rooms := alSet rc (selectAnswerApply room sockId d) s.rooms,
                questionTimers := clearQuestionTimer room.code s.questionTimers },
             [Emit.broadcast room.code "playerSubmitted",
              Emit.broadcast room.code "allAnswered",
              Emit.broadcast room.code "roomUpdated"])
          else
            ({ s with rooms := alSet rc (selectAnswerApply room sockId d) s.rooms },
             [Emit.broadcast room.code "playerSubmitted",
              Emit.broadcast room.code "roomUpdated"])
    else (s, [])

def resetForQuestion (p : Player) : Player :=
  { p with answered := false, selectedAnswer := none, answerTime := none, roundPoints := 0 }

def nextQuestion (s : ServerState) (sockId : String) : ServerState × List Emit :=
  match resolveRoom s sockId with
  | none => (s, [])
  | some (rc, room) =>
    if room.adminId = sockId ∧ room.status = Status.quiz then
      if room.questions.length ≤ room.currentQuestion + 1 then
        ({ s with
            rooms := alSet rc
              { room with
                  players := room.players.map resetForQuestion,
                  currentQuestion := room.currentQuestion + 1,
                  status := Status.finished } s.rooms },
         [Emit.broadcast room.code "quizFinished"])
      else
        ({ s with
            rooms := alSet rc
              { room with
                  players := room.players.map resetForQuestion,
                  currentQuestion := room.currentQuestion + 1 } s.rooms,
            questionTimers := startQuestionTimer room.code s.questionTimers },
         [Emit.broadcast room.code "questionUpdated"])
    else (s, [])

def playAgain (s : ServerState) (sockId : String) : ServerState × List Emit :=
  match resolveRoom s sockId with
  | none => (s, [])
  | some (rc, room) =>
    match findFirst (fun p => decide (p.id = sockId)) room.players with
    | none => (s, [])
    | some _ =>
      ({ s with
          rooms := alSet rc
            { room with
                rematch := true, questionsReady := false,
                players := (updateFirst (fun p => decide (p.id = sockId))
                  (fun p => { p with ready := true }) room.players) } s.rooms },
       [Emit.broadcast room.code "roomUpdated", Emit.reply "goToLobby" ""])

def leaveRoom (s : ServerState) (sockId : String) : ServerState × List Emit :=
  match alGet sockId s.socketRoomMap with
  | none => (s, [])
  | some roomCode =>
    match alGet roomCode s.rooms with
    | none => ({ s with socketRoomMap := alDelete sockId s.socketRoomMap }, [])
    | some room =>
      match spliceOut sockId room.players with
      | none => ({ s with socketRoomMap := alDelete sockId s.socketRoomMap }, [])
      | some (leaving, players2) =>
        match players2 with
        | [] =>
          ({ s with
              socketRoomMap := alDelete sockId s.socketRoomMap,
              rooms := alDelete roomCode s.rooms,
              questionTimers := clearQuestionTimer roomCode s.questionTimers }, [])
        | q :: rest =>
          ({ s with
              socketRoomMap := alDelete sockId s.socketRoomMap,
              rooms := alSet roomCode
                { room with
                    players := q :: rest,
                    adminId := if leaving.id = room.adminId then q.id else room.adminId } s.rooms },
           [Emit.broadcast roomCode "roomUpdated"])

def disconnect (s : ServerState) (sockId : String) : ServerState × List Emit :=
  match alGet sockId s.socketRoomMap with
  | none => (s, [])
  | some roomCode =>
    match alGet roomCode s.rooms with
    | none => ({ s with socketRoomMap := alDelete sockId s.socketRoomMap }, [])
    | some room =>
      match spliceOut sockId room.players with
      | none => ({ s with socketRoomMap := alDelete sockId s.socketRoomMap }, [])
      | some (_, players2) =>
        match players2 with
        | [] =>
          ({ s with
              socketRoomMap := alDelete sockId s.socketRoomMap,
              rooms := alDelete roomCode s.rooms,
              questionTimers := clearQuestionTimer roomCode s.questionTimers }, [])
        | q :: rest =>
          ({ s with
              socketRoomMap := alDelete sockId s.socketRoomMap,
              rooms := alSet roomCode
                { room with
                    players := q :: rest,
                    adminId := if room.adminId = sockId then q.id else room.adminId } s.rooms },
           [Emit.broadcast roomCode "roomUpdated"])

/-- Ghost bookkeeping for reference identity: when a room is destroyed,
the pending generations that captured it can no longer reach the store
(their completions mutate a dead object), and a later room under the same
code is a different object; dropping the orphaned tokens at destruction
time keeps the key-indexed model aligned with the object-capturing
closures. -/
def pruneGens (s : ServerState) : ServerState :=
  { s with pendingGens :=
      s.pendingGens.filter (fun g => (alGet g.roomCode s.rooms).isSome) }

/-! ### The transition system

One `Step` per inbound socket event plus the timer expiry, with the async
`generateQuestions` handler contributing two steps: its call-time half and
its completion, between which any other events may run.  `createRoom`
carries the freshness of its generated code (the `do..while` collision
loop), and a completion carries the external generator's contract of
returning exactly the requested number of items (spec section 6) — the
count captured at call time. -/

inductive Step : ServerState → ServerState → Prop where
  | create {s : ServerState} (sockId roomCode : String) (d : CreateData)
      (hfresh : alGet roomCode s.rooms = none) :
      Step s (createRoom s sockId roomCode d).1
  | join {s : ServerState} (sockId : String) (d : JoinData) :
      Step s (joinRoom s sockId d).1
  | rejoin {s : ServerState} (sockId : String) (d : RejoinData) :
      Step s (rejoinRoom s sockId d).1
  | settings {s : ServerState} (sockId : String) (d : SettingsData) :
      Step s (updateSettings s sockId d).1
  | genBegin {s : ServerState} (sockId : String) :
      Step s (generateQuestionsBegin s sockId).1
  | genComplete {s : ServerState} (tok : PendingGen) (result : Option (List Question))
      (hpend : tok ∈ s.pendingGens)
      (hcontract : ∀ qs, result = some qs → (qs.length : Int) = tok.count) :
      Step s (generateQuestionsComplete s tok result).1
  | start {s : ServerState} (sockId : String) :
      Step s (startQuiz s sockId).1
  | answer {s : ServerState} (sockId : String) (d : AnswerData) :
      Step s (selectAnswer s sockId d).1
  | next {s : ServerState} (sockId : String) :
      Step s (nextQuestion s sockId).1
  | again {s : ServerState} (sockId : String) :
      Step s (playAgain s sockId).1
  | leave {s : ServerState} (sockId : String) :
      Step s (pruneGens (leaveRoom s sockId).1)
  | dropSock {s : ServerState} (sockId : String) :
      Step s (pruneGens (disconnect s sockId).1)
  | fire {s : ServerState} (roomCode : String)
      (harmed : roomCode ∈ s.questionTimers) :
      Step s (questionTimerFire s roomCode).1

def initState : ServerState :=
  { rooms := [], socketRoomMap := [], questionTimers := [] }

inductive Reachable : ServerState → Prop where
  | init : Reachable initState
  | step {s s2 : ServerState} : Reachable s → Step s s2 → Reachable s2

/-- The same transition system under the schedule in which every
generation call completes before the next event runs (its two halves fused
into `generateQuestionsAtomic`). -/
inductive AtomicStep : ServerState → ServerState → Prop where
  | create {s : ServerState} (sockId roomCode : String) (d : CreateData)
      (hfresh : alGet roomCode s.rooms = none) :
      AtomicStep s (createRoom s sockId roomCode d).1
  | join {s : ServerState} (sockId : String) (d : JoinData) :
      AtomicStep s (joinRoom s sockId d).1
  | rejoin {s : ServerState} (sockId : String) (d : RejoinData) :
      AtomicStep s (rejoinRoom s sockId d).1
  | settings {s : ServerState} (sockId : String) (d : SettingsData) :
      AtomicStep s (updateSettings s sockId d).1
  | generate {s : ServerState} (sockId : String) (result : Option (List Question))
      (hcontract : ∀ tok qs, genToken s sockId = some tok → result = some qs →
        (qs.length : Int) = tok.count) :
      AtomicStep s (generateQuestionsAtomic s sockId result).1
  | start {s : ServerState} (sockId : String) :
      AtomicStep s (startQuiz s sockId).1
  | answer {s : ServerState} (sockId : String) (d : AnswerData) :
      AtomicStep s (selectAnswer s sockId d).1
  | next {s : ServerState} (sockId : String) :
      AtomicStep s (nextQuestion s sockId).1
  | again {s : ServerState} (sockId : String) :
      AtomicStep s (playAgain s sockId).1
  | leave {s : ServerState} (sockId : String) :
      AtomicStep s (pruneGens (leaveRoom s sockId).1)
  | dropSock {s : ServerState} (sockId : String) :
      AtomicStep s (pruneGens (disconnect s sockId).1)
  | fire {s : ServerState} (roomCode : String)
      (harmed : roomCode ∈ s.questionTimers) :
      AtomicStep s (questionTimerFire s roomCode).1

inductive AtomicReachable : ServerState → Prop where
  | init : AtomicReachable initState
  | step {s s2 : ServerState} :
      AtomicReachable s → AtomicStep s s2 → AtomicReachable s2

/-! ### Invariants -/

/-- The strengthened per-room invariant that is actually inductive. -/
def roomInv (room : Room) : Prop :=
  (room.questionsReady = true → (room.questions.length : Int) = room.questionCount)
  ∧ (room.status = Status.waiting → room.currentQuestion = 0)
  ∧ (room.status = Status.quiz → room.currentQuestion < room.questions.length)

def stateInv (s : ServerState) : Prop :=
  ∀ rc room, alGet rc s.rooms = some room → roomInv room

/-! ### Concrete fixtures -/

def pA : Player := newPlayer "sockA" "cidA" "Alice"

def pB : Player := newPlayer "sockB" "cidB" "Bob"

def q0 : Question :=
  { qid := "q1", question := "Q", options := ["a", "b", "c", "d"],
    correctAnswer := 2, difficulty := "easy" }

def lobbyRoom : Room :=
  { code := "ROOM1", adminId := "sockA", players := [pA, pB],
    status := Status.waiting, currentQuestion := 0, totalQuestions := 1,
    questions := [], topic := "Space", difficulty := "easy", questionCount := 1,
    questionTime := 30, questionsReady := false, rematch := false }

def lobbyState : ServerState :=
  { rooms := [("ROOM1", lobbyRoom)],
    socketRoomMap := [("sockA", "ROOM1"), ("sockB", "ROOM1")],
    questionTimers := [] }

def quizRoom : Room :=
  { lobbyRoom with status := Status.quiz, questions := [q0], questionsReady := true }

def quizState : ServerState :=
  { lobbyState with rooms := [("ROOM1", quizRoom)], questionTimers := ["ROOM1"] }

def tenPlayers : List Player :=
  (List.range 10).map (fun i => newPlayer ("s" ++ toString i) ("c" ++ toString i) "P")

def fullRoom : Room := { lobbyRoom with players := tenPlayers, adminId := "s0" }

def fullState : ServerState :=
  { rooms := [("ROOM1", fullRoom)], socketRoomMap := [], questionTimers := [] }

def soloRoom : Room :=
  { lobbyRoom with
      players := [pA], questions := [q0], questionsReady := true,
      status := Status.quiz }

def soloState : ServerState :=
  { rooms := [("ROOM1", soloRoom)], socketRoomMap := [("sockA", "ROOM1")],
    questionTimers := ["ROOM1"] }

/-- Payload with every settings field absent (`updateSettings` with `{}`). -/
def noSettings : SettingsData :=
  { topic := none, difficulty := none, questionCount := none, questionTime := none }

/-! ### The trace finished match -> playAgain -> updateSettings

A one-question room is created, the quiz is run to `finished`, a player
requests a rematch and the admin touches the settings. -/

def cexData : CreateData :=
  { playerName := "Alice", topic := "Space", difficulty := "easy",
    questionCount := some 1, clientId := "cidA" }

def cexS1 : ServerState := (createRoom initState "sockA" "ROOM1" cexData).1

/-- Token of the generation begun at `cexS1` (arguments as of call time). -/
def cexTok1 : PendingGen :=
  { roomCode := "ROOM1", emitCode := "ROOM1", sockId := "sockA",
    topic := "Space", difficulty := "easy", count := 1 }

def cexS1b : ServerState := (generateQuestionsBegin cexS1 "sockA").1

def cexS2 : ServerState := (generateQuestionsComplete cexS1b cexTok1 (some [q0])).1

def cexS3 : ServerState := (startQuiz cexS2 "sockA").1

def cexS4 : ServerState := (nextQuestion cexS3 "sockA").1

def cexS5 : ServerState := (playAgain cexS4 "sockA").1

def cexS6 : ServerState := (updateSettings cexS5 "sockA" noSettings).1

def cexRoom6 : Room := (alGet "ROOM1" cexS6.rooms).getD lobbyRoom

/-- The room created by the first step of the trace. -/
def cexRoom1 : Room :=
  { code := "ROOM1", adminId := "sockA", players := [newPlayer "sockA" "cidA" "Alice"],
    status := Status.waiting, currentQuestion := 0, totalQuestions := 1, questions := [],
    topic := "Space", difficulty := "easy", questionCount := 1, questionTime := 30,
    questionsReady := false, rematch := false }

/-! ### The trace of a stale generation completion

A two-question generation is begun, the admin lowers `questionCount` to 1
while it is pending, and then the generation settles: the completion writes
the two stale questions and `questionsReady := true` over the reconfigured
room. -/

def staleCreate : CreateData :=
  { playerName := "Ann", topic := "Art", difficulty := "easy",
    questionCount := some 2, clientId := "cidX" }

def staleTok : PendingGen :=
  { roomCode := "R2", emitCode := "R2", sockId := "sockD",
    topic := "Art", difficulty := "easy", count := 2 }

def staleSettings : SettingsData :=
  { topic := none, difficulty := none, questionCount := some 1, questionTime := none }

def staleS1 : ServerState := (createRoom initState "sockD" "R2" staleCreate).1

def staleS2 : ServerState := (generateQuestionsBegin staleS1 "sockD").1

def staleS3 : ServerState := (updateSettings staleS2 "sockD" staleSettings).1

def staleS4 : ServerState := (generateQuestionsComplete staleS3 staleTok (some [q0, q0])).1

def staleRoom4 : Room := (alGet "R2" staleS4.rooms).getD lobbyRoom

/-! ## Library lemmas about the map and array helpers -/

theorem alGet_alSet {α : Type} (k j : String) (v : α) (l : List (String × α)) :
    alGet j (alSet k v l) = if k = j then some v else alGet j l := by
  induction l with
  | nil =>
    by_cases h : k = j <;> simp [alGet, alSet, h]
  | cons kv t ih =>
    obtain ⟨a, b⟩ := kv
    by_cases hk : a = k
    · subst hk
      by_cases hj : a = j <;> simp [alGet, alSet, hj]
    · by_cases hj : a = j
      · subst hj
        have hkj : ¬ k = a := fun h => hk h.symm
        simp [alGet, alSet, hk, hkj]
      · simp [alGet, alSet, hk, hj, ih]

theorem alGet_alSet_self {α : Type} (k : String) (v : α) (l : List (String × α)) :
    alGet k (alSet k v l) = some v := by
  simp [alGet_alSet]

theorem alGet_alSet_ne {α : Type} {k j : String} (v : α) (l : List (String × α))
    (h : k ≠ j) : alGet j (alSet k v l) = alGet j l := by
  simp [alGet_alSet, h]

theorem alGet_alDelete {α : Type} (k j : String) (l : List (String × α)) :
    alGet j (alDelete k l) = if k = j then none else alGet j l := by
  induction l with
  | nil => by_cases h : k = j <;> simp [alGet, alDelete, h]
  | cons kv t ih =>
    obtain ⟨a, b⟩ := kv
    by_cases hk : a = k
    · subst hk
      by_cases hj : a = j
      · subst hj
        simp [alGet, alDelete, ih]
      · simp [alGet, alDelete, hj, ih]
    · by_cases hj : a = j
      · subst hj
        have hkj : ¬ k = a := fun h => hk h.symm
        simp [alGet, alDelete, hk, hkj]
      · simp [alGet, alDelete, hk, hj, ih]

theorem alGet_alDelete_self {α : Type} (k : String) (l : List (String × α)) :
    alGet k (alDelete k l) = none := by
  simp [alGet_alDelete]

theorem length_updateFirst {α : Type} (pred : α → Bool) (f : α → α) (l : List α) :
    (updateFirst pred f l).length = l.length := by
  induction l with
  | nil => rfl
  | cons x t ih => by_cases h : pred x <;> simp [updateFirst, h, ih]

theorem findFirst_updateFirst {α : Type} (pred : α → Bool) (f : α → α) (l : List α)
    (hf : ∀ x, pred x = true → pred (f x) = true) (p : α)
    (h : findFirst pred l = some p) :
    findFirst pred (updateFirst pred f l) = some (f p) := by
  induction l with
  | nil => simp [findFirst] at h
  | cons x t ih =>
    by_cases hx : pred x
    · simp [findFirst, hx] at h
      subst h
      simp [updateFirst, findFirst, hx, hf x hx]
    · simp [findFirst, hx] at h
      simp [updateFirst, findFirst, hx, ih h]

theorem spliceOut_singleton (sockId : String) (p : Player) (hp : p.id = sockId) :
    spliceOut sockId [p] = some (p, []) := by
  simp [spliceOut, hp]

theorem spliceOut_id (sockId : String) (l : List Player) (p : Player) (t : List Player)
    (h : spliceOut sockId l = some (p, t)) : p.id = sockId := by
  induction l generalizing p t with
  | nil => simp [spliceOut] at h
  | cons x xs ih =>
    by_cases hx : x.id = sockId
    · simp [spliceOut, hx] at h
      rw [← h.1]
      exact hx
    · simp only [spliceOut, hx, if_false] at h
      cases hs : spliceOut sockId xs with
      | none => rw [hs] at h; simp at h
      | some qt =>
        obtain ⟨q, t2⟩ := qt
        rw [hs] at h
        simp at h
        rw [← h.1]
        exact ih q t2 hs

/-! ## Claim theorems -/

/-- C1: the scoring computation is deterministic and matches the reference
values: a correct answer with the full 30 of 30 seconds remaining (0 elapsed)
awards 20 round points and adds 20 to the score; a correct answer with 0
remaining (30 elapsed) awards 10; an incorrect or missing answer always
awards 0 round points and leaves the cumulative score unchanged, both in
`selectAnswer`'s player mutation and in the timer expiry auto-submit; shown
also on the full handler at a concrete quiz state. -/
theorem c1_scoring :
    (∀ p a, (applyAnswer p (some a) 30 30 (some a)).roundPoints = 20
      ∧ (applyAnswer p (some a) 30 30 (some a)).score = p.score + 20)
    ∧ (∀ p a, (applyAnswer p (some a) 0 30 (some a)).roundPoints = 10
      ∧ (applyAnswer p (some a) 0 30 (some a)).score = p.score + 10)
    ∧ (∀ p ans co tr mt, answerMatches ans co = false →
        (applyAnswer p ans tr mt co).roundPoints = 0
        ∧ (applyAnswer p ans tr mt co).score = p.score)
    ∧ (∀ p, (autoSubmit p).score = p.score
        ∧ (p.answered = false → (autoSubmit p).roundPoints = 0))
    ∧ ((selectAnswer quizState "sockA" { answer := some 2, timeRemaining := some 30 }).1.rooms.map
        (fun kv => kv.2.players.map (fun p => (p.score, p.roundPoints)))) = [[(20, 20), (0, 0)]]
    ∧ ((selectAnswer quizState "sockA" { answer := some 2, timeRemaining := some 0 }).1.rooms.map
        (fun kv => kv.2.players.map (fun p => (p.score, p.roundPoints)))) = [[(10, 10), (0, 0)]]
    ∧ ((selectAnswer quizState "sockA" { answer := some 0, timeRemaining := some 30 }).1.rooms.map
        (fun kv => kv.2.players.map (fun p => (p.score, p.roundPoints)))) = [[(0, 0), (0, 0)]] := by
  have hb30 : timeBonus 30 30 = 10 := by decide
  have hb0 : timeBonus 0 30 = 0 := by decide
  refine ⟨fun p a => ?_, fun p a => ?_, fun p ans co tr mt h => ?_, fun p => ?_,
    by decide, by decide, by decide⟩
  · constructor <;> simp [applyAnswer, answerMatches, hb30]
  · constructor <;> simp [applyAnswer, answerMatches, hb0]
  · simp [applyAnswer, h]
  · by_cases hp : p.answered <;> simp [autoSubmit, hp]

/-- Closed instance of the hypothesis-bearing parts of `c1_scoring`: a wrong
answer (2 is correct, 0 selected) awards nothing and leaves the score alone,
and the auto-submit of an unanswered player awards nothing. -/
theorem c1_scoring_witness :
    (answerMatches (some 0) (some 2) = false
      ∧ (applyAnswer pA (some 0) 7 30 (some 2)).roundPoints = 0
      ∧ (applyAnswer pA (some 0) 7 30 (some 2)).score = pA.score)
    ∧ (pB.answered = false ∧ (autoSubmit pB).roundPoints = 0) :=
  ⟨⟨by decide, (c1_scoring.2.2.1 pA (some 0) (some 2) 7 30 (by decide)).1,
    (c1_scoring.2.2.1 pA (some 0) (some 2) 7 30 (by decide)).2⟩,
   ⟨by decide, (c1_scoring.2.2.2.1 pB).2 (by decide)⟩⟩

/-- C2: for every room and caller, `startQuiz` with `questionsReady = false`
is rejected: the server state is untouched and the only event is an error
reply to the caller (the message depends on whether the caller is admin). -/
theorem c2_startQuiz_rejected (s : ServerState) (sockId rc : String) (room : Room)
    (hres : resolveRoom s sockId = some (rc, room))
    (hnr : room.questionsReady = false) :
    (startQuiz s sockId).1 = s
    ∧ ∃ msg, (startQuiz s sockId).2 = [Emit.reply "error" msg] := by
  by_cases hadmin : room.adminId = sockId
  · refine ⟨?_, "Generate questions first", ?_⟩ <;>
      simp [startQuiz, hres, hadmin, hnr]
  · refine ⟨?_, "Not authorized", ?_⟩ <;>
      simp [startQuiz, hres, hadmin]

/-- Closed instance of `c2_startQuiz_rejected` at the two-player lobby whose
questions were never generated. -/
theorem c2_startQuiz_rejected_witness :
    resolveRoom lobbyState "sockA" = some ("ROOM1", lobbyRoom)
    ∧ lobbyRoom.questionsReady = false
    ∧ (startQuiz lobbyState "sockA").1 = lobbyState
    ∧ ∃ msg, (startQuiz lobbyState "sockA").2 = [Emit.reply "error" msg] :=
  ⟨by decide, by decide,
   (c2_startQuiz_rejected lobbyState "sockA" "ROOM1" lobbyRoom (by decide) (by decide)).1,
   (c2_startQuiz_rejected lobbyState "sockA" "ROOM1" lobbyRoom (by decide) (by decide)).2⟩

/-- C3: every `updateSettings` call by the admin of a lobby-like room leaves
the room with `questionsReady = false` and `questions = []`, for every
payload, including one that changes nothing. -/
theorem c3_updateSettings_invalidates (s : ServerState) (sockId rc : String)
    (room : Room) (d : SettingsData)
    (hres : resolveRoom s sockId = some (rc, room))
    (hadmin : room.adminId = sockId)
    (hlobby : canJoinRoom room) :
    alGet rc ((updateSettings s sockId d).1).rooms = some (applySettings room d)
    ∧ (applySettings room d).questionsReady = false
    ∧ (applySettings room d).questions = [] := by
  refine ⟨?_, rfl, rfl⟩
  simp [updateSettings, hres, hadmin, hlobby, alGet_alSet_self]

/-- Closed instance of `c3_updateSettings_invalidates`: the admin submits a
payload with no changed field and the lobby's questions are still cleared. -/
theorem c3_updateSettings_invalidates_witness :
    lobbyRoom.adminId = "sockA" ∧ canJoinRoom lobbyRoom
    ∧ alGet "ROOM1" ((updateSettings lobbyState "sockA" noSettings).1).rooms
        = some (applySettings lobbyRoom noSettings)
    ∧ (applySettings lobbyRoom noSettings).questionsReady = false
    ∧ (applySettings lobbyRoom noSettings).questions = [] :=
  ⟨by decide, by decide,
   (c3_updateSettings_invalidates lobbyState "sockA" "ROOM1" lobbyRoom noSettings
      (by decide) (by decide) (by decide)).1,
   (c3_updateSettings_invalidates lobbyState "sockA" "ROOM1" lobbyRoom noSettings
      (by decide) (by decide) (by decide)).2⟩

/-- C4: removing the player who is the current admin, whether by
`leaveRoom` or by `disconnect`, from a room that keeps at least one player,
promotes the first remaining player in join order: afterwards `adminId`
equals `players[0].id`. -/
theorem c4_admin_succession (s : ServerState) (sockId rc : String) (room : Room)
    (p q : Player) (rest : List Player)
    (hmap : alGet sockId s.socketRoomMap = some rc)
    (hroom : alGet rc s.rooms = some room)
    (hadmin : room.adminId = sockId)
    (hsp : spliceOut sockId room.players = some (p, q :: rest)) :
    (∃ room2, alGet rc ((leaveRoom s sockId).1).rooms = some room2
      ∧ room2.players = q :: rest ∧ room2.adminId = q.id)
    ∧ (∃ room2, alGet rc ((disconnect s sockId).1).rooms = some room2
      ∧ room2.players = q :: rest ∧ room2.adminId = q.id) := by
  have hpid : p.id = room.adminId := by
    rw [spliceOut_id sockId room.players p (q :: rest) hsp, hadmin]
  constructor
  · refine ⟨{ room with
        players := q :: rest,
        adminId := if p.id = room.adminId then q.id else room.adminId }, ?_, rfl, ?_⟩
    · simp [leaveRoom, hmap, hroom, hsp, alGet_alSet_self]
    · simp [hpid]
  · refine ⟨{ room with
        players := q :: rest,
        adminId := if room.adminId = sockId then q.id else room.adminId }, ?_, rfl, ?_⟩
    · simp [disconnect, hmap, hroom, hsp, alGet_alSet_self]
    · simp [hadmin]

/-- Closed instance of `c4_admin_succession`: the admin of the two-player
quiz room leaves and the other player, first in join order, becomes admin. -/
theorem c4_admin_succession_witness :
    quizRoom.adminId = "sockA"
    ∧ spliceOut "sockA" quizRoom.players = some (pA, pB :: [])
    ∧ ((∃ room2, alGet "ROOM1" ((leaveRoom quizState "sockA").1).rooms = some room2
          ∧ room2.players = pB :: [] ∧ room2.adminId = pB.id)
      ∧ (∃ room2, alGet "ROOM1" ((disconnect quizState "sockA").1).rooms = some room2
          ∧ room2.players = pB :: [] ∧ room2.adminId = pB.id)) :=
  ⟨by decide, by decide,
   c4_admin_succession quizState "sockA" "ROOM1" quizRoom pA pB []
     (by decide) (by decide) (by decide) (by decide)⟩

/-- C5: an operation that empties a room's player list (`leaveRoom` or
`disconnect` of the sole player) deletes the room from the store and clears
its question timer entry. -/
theorem c5_empty_room_destroyed (s : ServerState) (sockId rc : String) (room : Room)
    (p : Player)
    (hmap : alGet sockId s.socketRoomMap = some rc)
    (hroom : alGet rc s.rooms = some room)
    (hone : room.players = [p]) (hp : p.id = sockId) :
    (alGet rc ((leaveRoom s sockId).1).rooms = none
      ∧ rc ∉ ((leaveRoom s sockId).1).questionTimers)
    ∧ (alGet rc ((disconnect s sockId).1).rooms = none
      ∧ rc ∉ ((disconnect s sockId).1).questionTimers) := by
  have hsp : spliceOut sockId room.players = some (p, []) := by
    rw [hone]
    exact spliceOut_singleton sockId p hp
  have hclear : rc ∉ clearQuestionTimer rc s.questionTimers := by
    simp [clearQuestionTimer]
  refine ⟨⟨?_, ?_⟩, ⟨?_, ?_⟩⟩ <;>
    simp [leaveRoom, disconnect, hmap, hroom, hsp, alGet_alDelete_self, hclear, clearQuestionTimer]

/-- Closed instance of `c5_empty_room_destroyed`: the only player of the
solo quiz room (timer armed) disconnects and the room and timer are gone. -/
theorem c5_empty_room_destroyed_witness :
    soloRoom.players = [pA] ∧ "ROOM1" ∈ soloState.questionTimers
    ∧ ((alGet "ROOM1" ((leaveRoom soloState "sockA").1).rooms = none
          ∧ "ROOM1" ∉ ((leaveRoom soloState "sockA").1).questionTimers)
      ∧ (alGet "ROOM1" ((disconnect soloState "sockA").1).rooms = none
          ∧ "ROOM1" ∉ ((disconnect soloState "sockA").1).questionTimers)) :=
  ⟨by decide, by decide,
   c5_empty_room_destroyed soloState "sockA" "ROOM1" soloRoom pA
     (by decide) (by decide) (by decide) (by decide)⟩

/-- C6 as stated is false: in a lobby-like room, `joinRoom` with a
`clientId` that already belongs to an existing player appends a second
player with the same `clientId` instead of rebinding (the rebind branch is
only reached when the room is not joinable).  Before the call the lobby
has one player with `clientId = "cidA"`; after it, two. -/
theorem c6_counterexample :
    lobbyRoom.players.countP (fun p => decide (p.clientId = "cidA")) = 1
    ∧ canJoinRoom lobbyRoom
    ∧ ((joinRoom lobbyState "sockC"
        { roomCode := "Room1", playerName := "Carl", clientId := "cidA" }).1.rooms.map
        (fun kv => kv.2.players.countP (fun p => decide (p.clientId = "cidA")))) = [2] :=
  ⟨by decide, by decide, by decide⟩

/-- C6 amended: `joinRoom` rebinds an existing `clientId` (updating only the
connection id, appending nothing) exactly when the room is not in a
lobby-like state; in a lobby-like, non-full room it always appends a fresh
player, even when the `clientId` already belongs to an existing player, so
`joinRoom` can create duplicate `clientId`s. -/
theorem c6_amended (s : ServerState) (sockId : String) (d : JoinData) (room : Room)
    (hroom : alGet (toUpperStr d.roomCode) s.rooms = some room) :
    (¬ canJoinRoom room → d.clientId ≠ "" →
      ∀ p, findFirst (fun x => decide (x.clientId = d.clientId)) room.players = some p →
      ∃ room2, alGet (toUpperStr d.roomCode) ((joinRoom s sockId d).1).rooms = some room2
        ∧ room2.players.length = room.players.length
        ∧ findFirst (fun x => decide (x.clientId = d.clientId)) room2.players
            = some { p with id := sockId })
    ∧ (canJoinRoom room → room.players.length < 10 →
      ∃ room2, alGet (toUpperStr d.roomCode) ((joinRoom s sockId d).1).rooms = some room2
        ∧ room2.players = room.players ++
            [newPlayer sockId (defaultStr d.clientId (sockId ++ "-t"))
              (defaultStr d.playerName "Player")]) := by
  constructor
  · intro hnj hcid p hfind
    refine ⟨{ room with
        players := (updateFirst (fun x => decide (x.clientId = d.clientId))
          (fun x => { x with id := sockId }) room.players) }, ?_, ?_, ?_⟩
    · simp [joinRoom, hroom, hnj, hcid, hfind, alGet_alSet_self]
    · simp [length_updateFirst]
    · exact findFirst_updateFirst _ _ _ (fun x hx => by simpa using hx) p hfind
  · intro hcj hlt
    refine ⟨{ room with
        players := (room.players ++
          [newPlayer sockId (defaultStr d.clientId (sockId ++ "-t"))
            (defaultStr d.playerName "Player")]) }, ?_, rfl⟩
    have hfull : ¬ 10 ≤ room.players.length := by omega
    simp [joinRoom, hroom, hcj, hfull, alGet_alSet_self]

/-- Closed instance of `c6_amended`: rebinding does happen in the
non-lobby-like (active-quiz) case, without growing the player list. -/
theorem c6_amended_witness :
    ¬ canJoinRoom quizRoom
    ∧ findFirst (fun x => decide (x.clientId = "cidB")) quizRoom.players = some pB
    ∧ ∃ room2, alGet "ROOM1" ((joinRoom quizState "sockB2"
        { roomCode := "ROOM1", playerName := "Bob", clientId := "cidB" }).1).rooms = some room2
      ∧ room2.players.length = quizRoom.players.length
      ∧ findFirst (fun x => decide (x.clientId = "cidB")) room2.players
          = some { pB with id := "sockB2" } :=
  ⟨by decide, by decide,
   (c6_amended quizState "sockB2"
      { roomCode := "ROOM1", playerName := "Bob", clientId := "cidB" } quizRoom
      (by decide)).1 (by decide) (by decide) pB (by decide)⟩

/-- C8 as stated is false: `disconnect` removes the player from the room, so
a later `rejoinRoom` with that player's `clientId` finds no player to rebind;
with the quiz active it is rejected with an error and the state is untouched.
Concretely: after `sockB` (clientId `cidB`) disconnects from the running
two-player quiz, no player with `cidB` remains, and the rejoin attempt under
a new connection errors out. -/
theorem c8_counterexample :
    ((disconnect quizState "sockB").1.rooms.map
      (fun kv => kv.2.players.countP (fun p => decide (p.clientId = "cidB")))) = [0]
    ∧ (rejoinRoom ((disconnect quizState "sockB").1) "sockB2"
        { roomCode := "ROOM1", clientId := "cidB", playerName := "Bob" })
      = ((disconnect quizState "sockB").1,
         [Emit.reply "error" "Game already in progress"]) :=
  ⟨by decide, by decide⟩

/-- C8 amended: `rejoinRoom` rebinds the `connectionId` of the player with
the matching `clientId` whenever such a player is still in the room, in any
status; when no player matches (as after a `disconnect`, which removes the
player), it joins fresh in a lobby-like room and is rejected with an error
while the quiz is active. -/
theorem c8_amended (s : ServerState) (sockId : String) (d : RejoinData) (room : Room)
    (hrc : toUpperStr d.roomCode ≠ "") (hcid : d.clientId ≠ "")
    (hroom : alGet (toUpperStr d.roomCode) s.rooms = some room) :
    (∀ p, findFirst (fun x => decide (x.clientId = d.clientId)) room.players = some p →
      ∃ room2, alGet (toUpperStr d.roomCode) ((rejoinRoom s sockId d).1).rooms = some room2
        ∧ room2.players.length = room.players.length
        ∧ findFirst (fun x => decide (x.clientId = d.clientId)) room2.players
            = some { p with id := sockId })
    ∧ (findFirst (fun x => decide (x.clientId = d.clientId)) room.players = none →
        ¬ canJoinRoom room →
        rejoinRoom s sockId d = (s, [Emit.reply "error" "Game already in progress"]))
    ∧ (findFirst (fun x => decide (x.clientId = d.clientId)) room.players = none →
        canJoinRoom room →
        ∃ room2, alGet (toUpperStr d.roomCode) ((rejoinRoom s sockId d).1).rooms = some room2
          ∧ room2.players = room.players ++
              [newPlayer sockId d.clientId (defaultStr d.playerName "Player")]) := by
  have hguard : ¬ (toUpperStr d.roomCode = "" ∨ d.clientId = "") := not_or.mpr ⟨hrc, hcid⟩
  refine ⟨?_, ?_, ?_⟩
  · intro p hfind
    refine ⟨{ room with
        players := (updateFirst (fun x => decide (x.clientId = d.clientId))
          (fun x => { x with id := sockId }) room.players) }, ?_, ?_, ?_⟩
    · simp [rejoinRoom, hguard, hroom, hfind, alGet_alSet_self]
    · simp [length_updateFirst]
    · exact findFirst_updateFirst _ _ _ (fun x hx => by simpa using hx) p hfind
  · intro hfind hnj
    simp [rejoinRoom, hguard, hroom, hfind, hnj]
  · intro hfind hcj
    refine ⟨{ room with
        players := (room.players ++
          [newPlayer sockId d.clientId (defaultStr d.playerName "Player")]) }, ?_, rfl⟩
    simp [rejoinRoom, hguard, hroom, hfind, hcj, alGet_alSet_self]

/-- Closed instance of `c8_amended`: a rejoin for a player still present in
the active quiz rebinds the connection id in place. -/
theorem c8_amended_witness :
    findFirst (fun x => decide (x.clientId = "cidB")) quizRoom.players = some pB
    ∧ ∃ room2, alGet "ROOM1" ((rejoinRoom quizState "sockB2"
        { roomCode := "ROOM1", clientId := "cidB", playerName := "Bob" }).1).rooms = some room2
      ∧ room2.players.length = quizRoom.players.length
      ∧ findFirst (fun x => decide (x.clientId = "cidB")) room2.players
          = some { pB with id := "sockB2" } :=
  ⟨by decide,
   (c8_amended quizState "sockB2"
      { roomCode := "ROOM1", clientId := "cidB", playerName := "Bob" } quizRoom
      (by decide) (by decide) (by decide)).1 pB (by decide)⟩

/-- C9 as stated is false: a precondition-violating `nextQuestion` by a
non-admin, and an `updateSettings` outside a lobby-like state, leave the
state unchanged and broadcast nothing, but they also send no error response
at all to the caller, contradicting the claim that every such failure is
reported to the acting caller. -/
theorem c9_counterexample :
    resolveRoom quizState "sockB" = some ("ROOM1", quizRoom)
    ∧ quizRoom.adminId ≠ "sockB"
    ∧ nextQuestion quizState "sockB" = (quizState, [])
    ∧ updateSettings quizState "sockA" noSettings = (quizState, []) :=
  ⟨by decide, by decide, by decide, by decide⟩

/-- C9 amended: guard failures never mutate the room state and are never
broadcast to the room; `joinRoom` failures (room unknown, room full, game
already started) are reported to the caller alone via an error reply, while
the guard failures of `nextQuestion` and `updateSettings` are silent no-ops
producing no event at all. -/
theorem c9_amended (s : ServerState) (sockId : String) :
    (∀ d : JoinData, alGet (toUpperStr d.roomCode) s.rooms = none →
      joinRoom s sockId d = (s, [Emit.reply "error" "Room not found"]))
    ∧ (∀ (d : JoinData) (room : Room), alGet (toUpperStr d.roomCode) s.rooms = some room →
        canJoinRoom room → 10 ≤ room.players.length →
        joinRoom s sockId d = (s, [Emit.reply "error" "Room is full"]))
    ∧ (∀ (d : JoinData) (room : Room), alGet (toUpperStr d.roomCode) s.rooms = some room →
        ¬ canJoinRoom room →
        findFirst (fun x => decide (x.clientId = d.clientId)) room.players = none →
        joinRoom s sockId d = (s, [Emit.reply "error" "Game has already started"]))
    ∧ (∀ rc room, resolveRoom s sockId = some (rc, room) →
        ¬ (room.adminId = sockId ∧ room.status = Status.quiz) →
        nextQuestion s sockId = (s, []))
    ∧ (∀ (d : SettingsData) rc room, resolveRoom s sockId = some (rc, room) →
        ¬ (room.adminId = sockId ∧ canJoinRoom room) →
        updateSettings s sockId d = (s, [])) := by
  refine ⟨?_, ?_, ?_, ?_, ?_⟩
  · intro d h
    simp [joinRoom, h]
  · intro d room h hcj hfull
    simp [joinRoom, h, hcj, hfull]
  · intro d room h hnj hfind
    by_cases hcid : d.clientId = ""
    · simp [joinRoom, h, hnj, hcid]
    · simp [joinRoom, h, hnj, hcid, hfind]
  · intro rc room h hg
    simp [nextQuestion, h, hg]
  · intro d rc room h hg
    by_cases hadmin : room.adminId = sockId
    · have hnl : ¬ canJoinRoom room := fun hc => hg ⟨hadmin, hc⟩
      simp [updateSettings, h, hadmin, hnl]
    · simp [updateSettings, h, hadmin]

/-- Closed instance of `c9_amended`: the non-admin `nextQuestion` silently
no-ops, and a full lobby rejects a join with an error reply only. -/
theorem c9_amended_witness :
    resolveRoom quizState "sockB" = some ("ROOM1", quizRoom)
    ∧ ¬ (quizRoom.adminId = "sockB" ∧ quizRoom.status = Status.quiz)
    ∧ nextQuestion quizState "sockB" = (quizState, [])
    ∧ joinRoom fullState "sNew" { roomCode := "ROOM1", playerName := "New", clientId := "cNew" }
        = (fullState, [Emit.reply "error" "Room is full"]) :=
  ⟨by decide, by decide,
   (c9_amended quizState "sockB").2.2.2.1 "ROOM1" quizRoom (by decide) (by decide),
   (c9_amended fullState "sNew").2.1
     { roomCode := "ROOM1", playerName := "New", clientId := "cNew" } fullRoom
     (by decide) (by decide) (by decide)⟩

/-- C10: the 10-player cap is enforced only on the `joinRoom` path: in a
lobby-like room that already holds 10 players, a `rejoinRoom` whose
`clientId` matches nobody still appends an eleventh player, while `joinRoom`
for the same room is rejected as full. -/
theorem c10_cap_only_on_joinRoom (s : ServerState) (sockId : String) (d : RejoinData)
    (room : Room)
    (hrc : toUpperStr d.roomCode ≠ "") (hcid : d.clientId ≠ "")
    (hroom : alGet (toUpperStr d.roomCode) s.rooms = some room)
    (hfind : findFirst (fun x => decide (x.clientId = d.clientId)) room.players = none)
    (hlobby : canJoinRoom room)
    (hten : room.players.length = 10) :
    (∃ room2, alGet (toUpperStr d.roomCode) ((rejoinRoom s sockId d).1).rooms = some room2
      ∧ room2.players.length = 11)
    ∧ (∀ jd : JoinData, toUpperStr jd.roomCode = toUpperStr d.roomCode →
        joinRoom s sockId jd = (s, [Emit.reply "error" "Room is full"])) := by
  have hguard : ¬ (toUpperStr d.roomCode = "" ∨ d.clientId = "") := not_or.mpr ⟨hrc, hcid⟩
  constructor
  · refine ⟨{ room with
        players := (room.players ++
          [newPlayer sockId d.clientId (defaultStr d.playerName "Player")]) }, ?_, ?_⟩
    · simp [rejoinRoom, hguard, hroom, hfind, hlobby, alGet_alSet_self]
    · simp [hten]
  · intro jd hjd
    have hroom2 : alGet (toUpperStr jd.roomCode) s.rooms = some room := by
      rw [hjd]
      exact hroom
    have hfull : 10 ≤ room.players.length := by omega
    simp [joinRoom, hroom2, hlobby, hfull]

/-- Closed instance of `c10_cap_only_on_joinRoom` at a 10-player lobby. -/
theorem c10_cap_only_on_joinRoom_witness :
    fullRoom.players.length = 10 ∧ canJoinRoom fullRoom
    ∧ (∃ room2, alGet "ROOM1" ((rejoinRoom fullState "sNew"
        { roomCode := "ROOM1", clientId := "cNew", playerName := "New" }).1).rooms = some room2
        ∧ room2.players.length = 11)
    ∧ joinRoom fullState "sNew" { roomCode := "ROOM1", playerName := "Mia", clientId := "cNew" }
        = (fullState, [Emit.reply "error" "Room is full"]) :=
  ⟨by decide, by decide,
   (c10_cap_only_on_joinRoom fullState "sNew"
      { roomCode := "ROOM1", clientId := "cNew", playerName := "New" } fullRoom
      (by decide) (by decide) (by decide) (by decide) (by decide) (by decide)).1,
   (c10_cap_only_on_joinRoom fullState "sNew"
      { roomCode := "ROOM1", clientId := "cNew", playerName := "New" } fullRoom
      (by decide) (by decide) (by decide) (by decide) (by decide) (by decide)).2
     { roomCode := "ROOM1", playerName := "Mia", clientId := "cNew" } (by decide)⟩

/-! ## Invariant preservation lemmas for the amended C7 -/

theorem resolveRoom_some (s : ServerState) (sockId rc : String) (room : Room)
    (h : resolveRoom s sockId = some (rc, room)) : alGet rc s.rooms = some room := by
  unfold resolveRoom at h
  split at h
  · exact Option.noConfusion h
  · split at h
    · exact Option.noConfusion h
    · rename_i rc0 hmap room0 hroom
      injection h with h2
      rw [Prod.mk.injEq] at h2
      obtain ⟨hrc2, hroom2⟩ := h2
      rw [← hrc2, ← hroom2]
      exact hroom

theorem roomInv_update (room r2 : Room)
    (hready : r2.questionsReady = room.questionsReady)
    (hq : r2.questions = room.questions)
    (hc : r2.questionCount = room.questionCount)
    (hs : r2.status = room.status)
    (hcq : r2.currentQuestion = room.currentQuestion)
    (h : roomInv room) : roomInv r2 := by
  unfold roomInv at h ⊢
  rw [hready, hq, hc, hs, hcq]
  exact h

theorem roomsInv_set (l : List (String × Room)) (k : String) (v : Room)
    (h : ∀ rc room, alGet rc l = some room → roomInv room) (hv : roomInv v) :
    ∀ rc room, alGet rc (alSet k v l) = some room → roomInv room := by
  intro rc room hget
  rw [alGet_alSet] at hget
  by_cases hk : k = rc
  · rw [if_pos hk] at hget
    cases hget
    exact hv
  · rw [if_neg hk] at hget
    exact h rc room hget

theorem roomsInv_delete (l : List (String × Room)) (k : String)
    (h : ∀ rc room, alGet rc l = some room → roomInv room) :
    ∀ rc room, alGet rc (alDelete k l) = some room → roomInv room := by
  intro rc room hget
  rw [alGet_alDelete] at hget
  by_cases hk : k = rc
  · rw [if_pos hk] at hget
    exact Option.noConfusion hget
  · rw [if_neg hk] at hget
    exact h rc room hget

theorem stateInv_createRoom (s : ServerState) (sockId roomCode : String) (d : CreateData)
    (h : stateInv s) : stateInv (createRoom s sockId roomCode d).1 := by
  unfold stateInv
  intro rc room hget
  unfold createRoom at hget
  refine roomsInv_set s.rooms roomCode _ h ?_ rc room hget
  refine ⟨?_, ?_, ?_⟩
  · intro hr
    simp at hr
  · intro _
    rfl
  · intro hs2
    simp at hs2

theorem stateInv_joinRoom (s : ServerState) (sockId : String) (d : JoinData)
    (h : stateInv s) : stateInv (joinRoom s sockId d).1 := by
  unfold stateInv
  intro rc room hget
  unfold joinRoom at hget
  split at hget
  · exact h rc room hget
  · rename_i room0 heq
    split at hget
    · split at hget
      · exact h rc room hget
      · refine roomsInv_set s.rooms _ _ h ?_ rc room hget
        exact roomInv_update room0 _ rfl rfl rfl rfl rfl (h _ _ heq)
    · split at hget
      · split at hget
        · refine roomsInv_set s.rooms _ _ h ?_ rc room hget
          exact roomInv_update room0 _ rfl rfl rfl rfl rfl (h _ _ heq)
        · exact h rc room hget
      · exact h rc room hget

theorem stateInv_rejoinRoom (s : ServerState) (sockId : String) (d : RejoinData)
    (h : stateInv s) : stateInv (rejoinRoom s sockId d).1 := by
  unfold stateInv
  intro rc room hget
  unfold rejoinRoom at hget
  split at hget
  · exact h rc room hget
  · split at hget
    · exact h rc room hget
    · rename_i room0 heq
      split at hget
      · split at hget
        · refine roomsInv_set s.rooms _ _ h ?_ rc room hget
          exact roomInv_update room0 _ rfl rfl rfl rfl rfl (h _ _ heq)
        · exact h rc room hget
      · refine roomsInv_set s.rooms _ _ h ?_ rc room hget
        exact roomInv_update room0 _ rfl rfl rfl rfl rfl (h _ _ heq)

theorem roomInv_applySettings (room : Room) (d : SettingsData)
    (hlobby : canJoinRoom room) (h : roomInv room) : roomInv (applySettings room d) := by
  obtain ⟨h1, h2, h3⟩ := h
  refine ⟨?_, ?_, ?_⟩
  · intro hr
    simp [applySettings] at hr
  · intro hs2
    exact h2 hs2
  · intro hs2
    rcases hlobby with hw | hf
    · exact absurd (hw.symm.trans hs2) (by decide)
    · exact absurd (hf.1.symm.trans hs2) (by decide)

theorem stateInv_updateSettings (s : ServerState) (sockId : String) (d : SettingsData)
    (h : stateInv s) : stateInv (updateSettings s sockId d).1 := by
  unfold stateInv
  intro rc room hget
  unfold updateSettings at hget
  split at hget
  · exact h rc room hget
  · rename_i rc0 room0 heq
    split at hget
    · split at hget
      · rename_i hadmin hlobby
        refine roomsInv_set s.rooms _ _ h ?_ rc room hget
        exact roomInv_applySettings room0 d hlobby
          (h _ _ (resolveRoom_some s sockId rc0 room0 heq))
      · exact h rc room hget
    · exact h rc room hget

theorem genToken_some (s : ServerState) (sockId : String) (tok : PendingGen)
    (h : genToken s sockId = some tok) :
    ∃ room0, resolveRoom s sockId = some (tok.roomCode, room0)
      ∧ canJoinRoom room0 ∧ tok.count = room0.questionCount := by
  unfold genToken at h
  split at h
  · exact Option.noConfusion h
  · rename_i rc0 room0 heq
    split at h
    · split at h
      · rename_i hadmin hlobby
        injection h with h2
        subst h2
        exact ⟨room0, heq, hlobby, rfl⟩
      · exact Option.noConfusion h
    · exact Option.noConfusion h

theorem stateInv_generateQuestionsAtomic (s : ServerState) (sockId : String)
    (result : Option (List Question))
    (hcontract : ∀ tok qs, genToken s sockId = some tok → result = some qs →
      (qs.length : Int) = tok.count)
    (h : stateInv s) : stateInv (generateQuestionsAtomic s sockId result).1 := by
  cases result with
  | none =>
    unfold stateInv
    intro rc room hget
    unfold generateQuestionsAtomic at hget
    split at hget
    · exact h rc room hget
    · exact h rc room hget
  | some qs =>
    unfold stateInv
    intro rc room hget
    unfold generateQuestionsAtomic at hget
    split at hget
    · exact h rc room hget
    · rename_i tok heqt
      obtain ⟨room0, hres, hlobby, hcount⟩ := genToken_some s sockId tok heqt
      have hroom0 : alGet tok.roomCode s.rooms = some room0 :=
        resolveRoom_some s sockId tok.roomCode room0 hres
      obtain ⟨h1, h2, h3⟩ := h _ _ hroom0
      unfold generateQuestionsComplete at hget
      split at hget
      · rename_i qs1 heqr
        injection heqr with heqr2
        subst heqr2
        split at hget
        · exact h rc room hget
        · rename_i room1 heq1
          have heq1b : alGet tok.roomCode s.rooms = some room1 := heq1
          rw [hroom0] at heq1b
          injection heq1b with heq2
          subst heq2
          refine roomsInv_set s.rooms _ _ h ?_ rc room hget
          refine ⟨?_, ?_, ?_⟩
          · intro _
            show ((qs.length : Int) = room0.questionCount)
            rw [hcontract tok qs heqt rfl]
            exact hcount
          · intro hs2
            exact h2 hs2
          · intro hs2
            rcases hlobby with hw | hf
            · exact absurd (hw.symm.trans hs2) (by decide)
            · exact absurd (hf.1.symm.trans hs2) (by decide)
      · rename_i hnone
        exact Option.noConfusion hnone

theorem stateInv_startQuiz (s : ServerState) (sockId : String)
    (h : stateInv s) : stateInv (startQuiz s sockId).1 := by
  unfold stateInv
  intro rc room hget
  unfold startQuiz at hget
  split at hget
  · exact h rc room hget
  · rename_i rc0 room0 heq
    have hroom0 := h _ _ (resolveRoom_some s sockId rc0 room0 heq)
    split at hget
    · split at hget
      · exact h rc room hget
      · rename_i hguard
        have hlen : room0.questions.length ≠ 0 := fun hh => hguard (Or.inl hh)
        have hready : room0.questionsReady = true := by
          cases hr : room0.questionsReady
          · exact absurd (Or.inr hr) hguard
          · rfl
        split at hget
        · split at hget
          · unfold startQuizGo at hget
            refine roomsInv_set s.rooms _ _ h ?_ rc room hget
            exact ⟨fun _ => hroom0.1 hready, fun _ => rfl,
              fun _ => Nat.pos_of_ne_zero hlen⟩
          · exact h rc room hget
        · unfold startQuizGo at hget
          refine roomsInv_set s.rooms _ _ h ?_ rc room hget
          exact ⟨fun _ => hroom0.1 hready, fun _ => rfl,
            fun _ => Nat.pos_of_ne_zero hlen⟩
    · exact h rc room hget

theorem stateInv_selectAnswer (s : ServerState) (sockId : String) (d : AnswerData)
    (h : stateInv s) : stateInv (selectAnswer s sockId d).1 := by
  unfold stateInv
  intro rc room hget
  unfold selectAnswer at hget
  split at hget
  · exact h rc room hget
  · rename_i rc0 room0 heq
    split at hget
    · split at hget
      · exact h rc room hget
      · split at hget
        · exact h rc room hget
        · split at hget
          · refine roomsInv_set s.rooms _ _ h ?_ rc room hget
            exact roomInv_update room0 _ rfl rfl rfl rfl rfl
              (h _ _ (resolveRoom_some s sockId rc0 room0 heq))
          · refine roomsInv_set s.rooms _ _ h ?_ rc room hget
            exact roomInv_update room0 _ rfl rfl rfl rfl rfl
              (h _ _ (resolveRoom_some s sockId rc0 room0 heq))
    · exact h rc room hget

theorem stateInv_nextQuestion (s : ServerState) (sockId : String)
    (h : stateInv s) : stateInv (nextQuestion s sockId).1 := by
  unfold stateInv
  intro rc room hget
  unfold nextQuestion at hget
  split at hget
  · exact h rc room hget
  · rename_i rc0 room0 heq
    have hroom0 := h _ _ (resolveRoom_some s sockId rc0 room0 heq)
    split at hget
    · rename_i hg
      split at hget
      · refine roomsInv_set s.rooms _ _ h ?_ rc room hget
        refine ⟨fun hr => hroom0.1 hr, ?_, ?_⟩
        · intro hw
          exact Status.noConfusion hw
        · intro hq2
          exact Status.noConfusion hq2
      · rename_i hlt
        refine roomsInv_set s.rooms _ _ h ?_ rc room hget
        refine ⟨fun hr => hroom0.1 hr, ?_, ?_⟩
        · intro hw
          exact absurd (hw.symm.trans hg.2) (by decide)
        · intro _
          show room0.currentQuestion + 1 < room0.questions.length
          omega
    · exact h rc room hget

theorem stateInv_playAgain (s : ServerState) (sockId : String)
    (h : stateInv s) : stateInv (playAgain s sockId).1 := by
  unfold stateInv
  intro rc room hget
  unfold playAgain at hget
  split at hget
  · exact h rc room hget
  · rename_i rc0 room0 heq
    have hroom0 := h _ _ (resolveRoom_some s sockId rc0 room0 heq)
    split at hget
    · exact h rc room hget
    · refine roomsInv_set s.rooms _ _ h ?_ rc room hget
      refine ⟨?_, ?_, ?_⟩
      · intro hr
        exact Bool.noConfusion hr
      · intro hw
        exact hroom0.2.1 hw
      · intro hq2
        exact hroom0.2.2 hq2

theorem stateInv_leaveRoom (s : ServerState) (sockId : String)
    (h : stateInv s) : stateInv (leaveRoom s sockId).1 := by
  unfold stateInv
  intro rc room hget
  unfold leaveRoom at hget
  split at hget
  · exact h rc room hget
  · split at hget
    · exact h rc room hget
    · rename_i room0 heqr
      split at hget
      · exact h rc room hget
      · split at hget
        · exact roomsInv_delete s.rooms _ h rc room hget
        · refine roomsInv_set s.rooms _ _ h ?_ rc room hget
          exact roomInv_update room0 _ rfl rfl rfl rfl rfl (h _ _ heqr)

theorem stateInv_disconnect (s : ServerState) (sockId : String)
    (h : stateInv s) : stateInv (disconnect s sockId).1 := by
  unfold stateInv
  intro rc room hget
  unfold disconnect at hget
  split at hget
  · exact h rc room hget
  · split at hget
    · exact h rc room hget
    · rename_i room0 heqr
      split at hget
      · exact h rc room hget
      · split at hget
        · exact roomsInv_delete s.rooms _ h rc room hget
        · refine roomsInv_set s.rooms _ _ h ?_ rc room hget
          exact roomInv_update room0 _ rfl rfl rfl rfl rfl (h _ _ heqr)

theorem stateInv_questionTimerFire (s : ServerState) (roomCode : String)
    (h : stateInv s) : stateInv (questionTimerFire s roomCode).1 := by
  unfold stateInv
  intro rc room hget
  unfold questionTimerFire at hget
  split at hget
  · exact h rc room hget
  · rename_i room0 heq
    refine roomsInv_set s.rooms _ _ h ?_ rc room hget
    exact roomInv_update room0 _ rfl rfl rfl rfl rfl (h _ _ heq)

theorem stateInv_atomicStep {s s2 : ServerState} (h : stateInv s)
    (hstep : AtomicStep s s2) : stateInv s2 := by
  cases hstep with
  | create sockId roomCode d hfresh => exact stateInv_createRoom s sockId roomCode d h
  | join sockId d => exact stateInv_joinRoom s sockId d h
  | rejoin sockId d => exact stateInv_rejoinRoom s sockId d h
  | settings sockId d => exact stateInv_updateSettings s sockId d h
  | generate sockId result hcontract =>
      exact stateInv_generateQuestionsAtomic s sockId result hcontract h
  | start sockId => exact stateInv_startQuiz s sockId h
  | answer sockId d => exact stateInv_selectAnswer s sockId d h
  | next sockId => exact stateInv_nextQuestion s sockId h
  | again sockId => exact stateInv_playAgain s sockId h
  | leave sockId => exact stateInv_leaveRoom s sockId h
  | dropSock sockId => exact stateInv_disconnect s sockId h
  | fire roomCode harmed => exact stateInv_questionTimerFire s roomCode h

theorem atomicReachable_stateInv {s : ServerState} (h : AtomicReachable s) :
    stateInv s := by
  induction h with
  | init =>
    intro rc room hget
    exact Option.noConfusion hget
  | step hr hstep ih => exact stateInv_atomicStep ih hstep

/-- C7 as stated is false: the trace create(questionCount = 1) ->
generateQuestions (begin and completion back to back) -> startQuiz ->
nextQuestion (match ends, `currentQuestion` becomes 1 = `questions.length`)
-> playAgain -> updateSettings reaches a state whose room has
`questions = []` (cleared by `updateSettings` in the rematch lobby) while
`currentQuestion` is still 1, so `currentQuestion <= questions.length`
fails in a reachable state. -/
theorem c7_counterexample :
    ∃ s room, Reachable s ∧ alGet "ROOM1" s.rooms = some room
      ∧ room.questions.length < room.currentQuestion := by
  have h1 : Reachable cexS1 :=
    Reachable.step Reachable.init (Step.create "sockA" "ROOM1" cexData (by decide))
  have h1b : Reachable cexS1b := Reachable.step h1 (Step.genBegin "sockA")
  have h2 : Reachable cexS2 := by
    refine Reachable.step h1b (Step.genComplete cexTok1 (some [q0]) (by decide) ?_)
    intro qs hq
    injection hq with hq2
    subst hq2
    decide
  have h3 : Reachable cexS3 := Reachable.step h2 (Step.start "sockA")
  have h4 : Reachable cexS4 := Reachable.step h3 (Step.next "sockA")
  have h5 : Reachable cexS5 := Reachable.step h4 (Step.again "sockA")
  have h6 : Reachable cexS6 := Reachable.step h5 (Step.settings "sockA" noSettings)
  exact ⟨cexS6, cexRoom6, h6, by decide, by decide⟩

/-- C7 amended: under the schedule in which every `generateQuestions` call
completes before the next event runs (`AtomicReachable`), every stored room
satisfies `questions.length = questionCount` whenever `questionsReady` is
true, and `currentQuestion <= questions.length` whenever its status is not
`finished` (after a finished match, `updateSettings` in the rematch lobby
clears `questions` while `currentQuestion` keeps its end-of-match value, so
the bound can fail in `finished` states).  When other events do run while a
generation is pending, even the first clause fails: the completion writes
the stale question set through the captured room with no re-validation, and
the faithful transition system reaches a room with `questionsReady = true`
and `questions.length ≠ questionCount`. -/
theorem c7_amended :
    (∀ s, AtomicReachable s → ∀ rc room, alGet rc s.rooms = some room →
      (room.questionsReady = true → (room.questions.length : Int) = room.questionCount)
      ∧ (room.status ≠ Status.finished → room.currentQuestion ≤ room.questions.length))
    ∧ (∃ s room, Reachable s ∧ alGet "R2" s.rooms = some room
        ∧ room.questionsReady = true
        ∧ (room.questions.length : Int) ≠ room.questionCount) := by
  constructor
  · intro s hreach rc room hroom
    obtain ⟨h1, h2, h3⟩ := atomicReachable_stateInv hreach rc room hroom
    refine ⟨h1, fun hs => ?_⟩
    cases hst : room.status with
    | waiting => rw [h2 hst]; exact Nat.zero_le _
    | quiz => exact Nat.le_of_lt (h3 hst)
    | finished => exact absurd hst hs
  · have h1 : Reachable staleS1 :=
      Reachable.step Reachable.init (Step.create "sockD" "R2" staleCreate (by decide))
    have h2 : Reachable staleS2 := Reachable.step h1 (Step.genBegin "sockD")
    have h3 : Reachable staleS3 := Reachable.step h2 (Step.settings "sockD" staleSettings)
    have h4 : Reachable staleS4 := by
      refine Reachable.step h3 (Step.genComplete staleTok (some [q0, q0]) (by decide) ?_)
      intro qs hq
      injection hq with hq2
      subst hq2
      decide
    exact ⟨staleS4, staleRoom4, h4, by decide, by decide, by decide⟩

/-- Closed instance of the universally quantified half of `c7_amended`, at
the state reached by one `createRoom` step under the atomic schedule. -/
theorem c7_amended_witness :
    AtomicReachable cexS1
    ∧ alGet "ROOM1" cexS1.rooms = some cexRoom1
    ∧ (cexRoom1.questionsReady = true →
        (cexRoom1.questions.length : Int) = cexRoom1.questionCount)
    ∧ (cexRoom1.status ≠ Status.finished →
        cexRoom1.currentQuestion ≤ cexRoom1.questions.length) := by
  have hreach : AtomicReachable cexS1 :=
    AtomicReachable.step AtomicReachable.init
      (AtomicStep.create "sockA" "ROOM1" cexData (by decide))
  exact ⟨hreach, by decide,
    (c7_amended.1 cexS1 hreach "ROOM1" cexRoom1 (by decide)).1,
    (c7_amended.1 cexS1 hreach "ROOM1" cexRoom1 (by decide)).2⟩
